import Mathlib

/-!
Shallow embedding of `src/DualExtrude.cpp` (DualExtrude version 2.2), a two-pass
converter turning a single-extruder G-code file into a dual-extruder one.

Modelling conventions:
* A C `double` is modelled as `ℚ`; the real-arithmetic formulas of the source are
  exact over `ℚ`.
* A file is a list of lines, each line the string `fgets` yields (its trailing
  `"\n"` included, as in the 1000-byte line buffer of `ConvFile` / `CheckFile`).
* `sscanf` with `"%d"` / `"%lf"` is modelled by `parseD` / `parseLf` below for the
  plain decimal forms the instruction files carry (optional C-whitespace skip,
  optional sign, digits, for `%lf` an optional fraction part; no exponent, hex,
  inf or nan forms, and no machine overflow). A failed conversion leaves the
  target variable unchanged, exactly as in the source.
* `printf`-style output is modelled by string concatenation; `%.5f` applied to a
  value that is an exact multiple of `1/100000` (the only way the source uses it,
  after its own rounding step) prints that value with exactly five decimals,
  modelled by `fmt5` on the integer numerator.
* File I/O is modelled by explicit lists: `ConvFile` returns the list of strings
  `fprintf`-ed to the output file (in order) together with the final `FirstE`
  value and the abort outcome; `Run` models `main`'s sequencing of `CheckFile`
  before `ConvFile`, where the output file is created only once `ConvFile` runs.
-/

set_option maxRecDepth 40000

namespace DualExtrude

/-- Delimiter test for the C global `char Tokens[] = " \012"`: a character is a
token separator exactly when it is a space (0x20) or a linefeed (0x0A). -/
def isDelim (c : Char) : Bool := c == ' ' || c == '\n'

/-- Accumulator-style splitter mirroring repeated `strtok(..., Tokens)` calls:
maximal runs of non-delimiter characters, in order, empties skipped. -/
def tokensAux : List Char → List Char → List (List Char)
  | [], acc => if acc = [] then [] else [acc.reverse]
  | c :: rest, acc =>
    if isDelim c then
      if acc = [] then tokensAux rest []
      else acc.reverse :: tokensAux rest []
    else tokensAux rest (c :: acc)

/-- All tokens of a character list, as produced by the `strtok` loop. -/
def tokenizeChars (l : List Char) : List (List Char) := tokensAux l []

/-- All tokens of a line. The first token (when any) is the command verb. -/
def tokenize (s : String) : List String :=
  (tokenizeChars s.toList).map (fun cs => String.mk cs)

/-- The seven instruction codes of the `CODES` table, in table order. -/
inductive Code where
  | M101 | M102 | M103 | M104 | M108 | M6 | G1
deriving DecidableEq

/-- String of each code, i.e. the `CODES[]` entry the code indexes. -/
def codeStr : Code → String
  | .M101 => "M101"
  | .M102 => "M102"
  | .M103 => "M103"
  | .M104 => "M104"
  | .M108 => "M108"
  | .M6 => "M6"
  | .G1 => "G1"

/-- `CheckCode` on a non-NULL token: the `strcmp` loop over `CODES[]` in table
order; no match yields `NOTOKENS` (modelled as `none`). -/
def codeOf (s : String) : Option Code :=
  if s = "M101" then some .M101
  else if s = "M102" then some .M102
  else if s = "M103" then some .M103
  else if s = "M104" then some .M104
  else if s = "M108" then some .M108
  else if s = "M6" then some .M6
  else if s = "G1" then some .G1
  else none

/-- C-locale `isspace` characters, skipped by `%d` / `%lf` conversions. -/
def isCSpace (c : Char) : Bool :=
  c == ' ' || c == '\t' || c == '\n' || c == '\x0b' || c == '\x0c' || c == '\r'

/-- Splits off the maximal leading run of decimal digits. -/
def takeDigits : List Char → List Char × List Char
  | [] => ([], [])
  | c :: cs =>
    if c.isDigit then
      let p := takeDigits cs
      (c :: p.1, p.2)
    else ([], c :: cs)

/-- Value of a digit string read most-significant first. -/
def digitsToNat (l : List Char) : ℕ :=
  l.foldl (fun a c => a * 10 + (c.toNat - 48)) 0

/-- Model of `sscanf(s, "%d", &x)`: skip C whitespace, optional sign, at least
one digit; `none` when the conversion fails (leaving the variable unchanged). -/
def parseD (s : String) : Option ℤ :=
  let l := s.toList.dropWhile isCSpace
  match l with
  | '-' :: r =>
    let p := takeDigits r
    if p.1 = [] then none else some (-(digitsToNat p.1 : ℤ))
  | '+' :: r =>
    let p := takeDigits r
    if p.1 = [] then none else some (digitsToNat p.1 : ℤ)
  | r =>
    let p := takeDigits r
    if p.1 = [] then none else some (digitsToNat p.1 : ℤ)

/-- Unsigned decimal with optional fraction part, for `%lf`: at least one digit
overall is required. -/
def parseFrac (l : List Char) : Option ℚ :=
  let ip := takeDigits l
  match ip.2 with
  | '.' :: l4 =>
    let fp := takeDigits l4
    if ip.1 = [] ∧ fp.1 = [] then none
    else some ((digitsToNat ip.1 : ℚ) + (digitsToNat fp.1 : ℚ) / (10 : ℚ) ^ fp.1.length)
  | _ => if ip.1 = [] then none else some (digitsToNat ip.1 : ℚ)

/-- Model of `sscanf(s, "%lf", &x)` on the plain decimal forms of the input
files: skip C whitespace, optional sign, digits with optional fraction. -/
def parseLf (s : String) : Option ℚ :=
  let l := s.toList.dropWhile isCSpace
  match l with
  | '-' :: r => (parseFrac r).map (fun q => -q)
  | '+' :: r => parseFrac r
  | r => parseFrac r

/-- Decimal digits of `n` left-padded with zeros to width 5. -/
def pad5 (n : ℕ) : String :=
  let s := Nat.repr n
  String.mk (List.replicate (5 - s.length) '0') ++ s

/-- `printf("%.5f", v)` where `v = n / 100000` exactly: sign, integer part,
point, five fraction digits. -/
def fmt5 (n : ℤ) : String :=
  (if n < 0 then "-" else "") ++ Nat.repr (n.natAbs / 100000) ++ "." ++ pad5 (n.natAbs % 100000)

/-- Fatal errors of the transform pass, each carrying the 1-based line number
printed by the corresponding `printf` in `ConvFile`. -/
inductive ConvErr where
  /-- `ERROR: Speed command too long in line %d`. -/
  | speedTooLong (line : ℕ)
  /-- `ERROR: No speed in command in line %d`. -/
  | noSpeed (line : ℕ)
  /-- `ERROR: E Parameter too long in line %d`. -/
  | eTooLong (line : ℕ)
deriving DecidableEq

/-- The 1-based line number cited by a transform-pass error message. -/
def lineNoOf : ConvErr → ℕ
  | .speedTooLong n => n
  | .noSpeed n => n
  | .eTooLong n => n

/-- Outcome of processing one line (or one `G1` token): the string contributed
to the output plus the updated `FirstE`, or a fatal error. -/
inductive LineOut where
  | out (s : String) (firstE : ℚ)
  | fail (e : ConvErr)
deriving DecidableEq

/-- The designator of the toolhead NOT used by the input file (`NotUsed` local
of `ConvFile`), from the `RightUsed` flag. -/
def NotUsed (r : Bool) : String := if r then "T1" else "T0"

/-- The `M104` parameter loop of `ConvFile`: walk the remaining tokens; a token
equal to `NotUsed` leaves the loop; a token starting with `S` runs
`sscanf(Token, "S%d", &Temp)`, updating `Temp` only on success. Returns the
final `Temp`. -/
def scanTemp (nu : String) : List String → ℤ → ℤ
  | [], temp => temp
  | t :: rest, temp =>
    if t = nu then temp
    else if t.toList.head? = some 'S' then scanTemp nu rest ((parseD (t.drop 1)).getD temp)
    else scanTemp nu rest temp

/-- Result of the `M108` parameter loop. -/
inductive SpeedRes where
  | ok (s : String)
  | fail (e : ConvErr)
deriving DecidableEq

/-- The `M108` parameter loop of `ConvFile` followed by the empty-`Speed` check:
a token equal to `NotUsed` leaves the loop; a token starting with `R` aborts
when longer than 15 characters, otherwise becomes the current `Speed`; after the
loop an empty `Speed` is the "No speed in command" error. -/
def scanSpeed (nu : String) (cnt : ℕ) : List String → String → SpeedRes
  | [], speed => if speed = "" then .fail (.noSpeed cnt) else .ok speed
  | t :: rest, speed =>
    if t = nu then (if speed = "" then .fail (.noSpeed cnt) else .ok speed)
    else if t.toList.head? = some 'R' then
      if 15 < t.length then .fail (.speedTooLong cnt)
      else scanSpeed nu cnt rest t
    else scanSpeed nu cnt rest speed

/-- Test `'E' == Token[0] || 'A' == Token[0] || 'B' == Token[0]` of the `G1`
parameter loop. -/
def isEAB (t : String) : Bool :=
  t.toList.head? == some 'E' || t.toList.head? == some 'A' || t.toList.head? == some 'B'

/-- One token of the `G1` parameter loop of `ConvFile`. For an extrusion token
(`E`/`A`/`B` first character): abort when longer than 15 characters; otherwise
read its value `CurrentE` (0 when the conversion fails); when `FirstE > 0`
compute the scaled value, round it to five decimals, and emit the `A`/`B` pair
ordered by `RightUsed`; otherwise emit both channels with the original text and
save `CurrentE` as `FirstE`. Any other token is copied with its leading space. -/
def convG1Token (r : Bool) (rat : ℚ) (cnt : ℕ) (fE : ℚ) (t : String) : LineOut :=
  if isEAB t then
    if 15 < t.length then .fail (.eTooLong cnt)
    else
      let v : ℚ := (parseLf (t.drop 1)).getD 0
      if 0 < fE then
        let n : ℤ := ⌊((v - fE) * rat + fE) * 100000 + 1 / 2⌋
        if r then .out (" B" ++ fmt5 n ++ " A" ++ t.drop 1) fE
        else .out (" A" ++ fmt5 n ++ " B" ++ t.drop 1) fE
      else .out (" A" ++ t.drop 1 ++ " B" ++ t.drop 1) v
  else .out (" " ++ t) fE

/-- The whole `G1` parameter loop: fold `convG1Token` over the remaining tokens,
then terminate the assembled line with a linefeed. -/
def convG1 (r : Bool) (rat : ℚ) (cnt : ℕ) : List String → String → ℚ → LineOut
  | [], acc, fE => .out (acc ++ "\n") fE
  | t :: rest, acc, fE =>
    match convG1Token r rat cnt fE t with
    | .fail e => .fail e
    | .out s fE2 => convG1 r rat cnt rest (acc ++ s) fE2

/-- One iteration of the `ConvFile` line loop: classify the line's first token
and rewrite per the `switch`. The `fprintf(out, "%s", buf)` at the loop's end is
unconditional, so every non-aborting iteration contributes exactly the final
contents of `buf`: the untouched input line when the `switch` left `buf` alone
(unclassified lines, and the `break` taken for a `NotUsed` second token in the
`M101`/`M102`/`M103`/`M6` cases), else the `sprintf`-built replacement. -/
def ConvLine (r : Bool) (rat : ℚ) (cnt : ℕ) (fE : ℚ) (line : String) : LineOut :=
  match tokenize line with
  | [] => .out line fE
  | verb :: rest =>
    match codeOf verb with
    | none => .out line fE
    | some c =>
      match c with
      | .M104 =>
        let temp := scanTemp (NotUsed r) rest 0
        .out (codeStr c ++ " S" ++ toString temp ++ " T1\n" ++
              codeStr c ++ " S" ++ toString temp ++ " T0\n") fE
      | .M108 =>
        match scanSpeed (NotUsed r) cnt rest "" with
        | .fail e => .fail e
        | .ok speed =>
          .out (codeStr c ++ " " ++ speed ++ " T1\n" ++
                codeStr c ++ " " ++ speed ++ " T0\n") fE
      | .G1 => convG1 r rat cnt rest (codeStr c) fE
      | _ =>
        match rest.head? with
        | some t =>
          if t = NotUsed r then .out line fE
          else .out (codeStr c ++ " T1\n" ++ codeStr c ++ " T0\n") fE
        | none => .out (codeStr c ++ " T1\n" ++ codeStr c ++ " T0\n") fE

/-- Result of the transform pass: the lines written to the output file in
order, the final `FirstE`, and the abort outcome (`some e` when the run stopped
at a fatal error, leaving the already-written lines on disk). -/
structure FileOut where
  outs : List String
  firstE : ℚ
  err : Option ConvErr
deriving DecidableEq

/-- The `ConvFile` line loop from line counter `cnt` and current `FirstE`. -/
def ConvFileAux (r : Bool) (rat : ℚ) : List String → ℕ → ℚ → FileOut
  | [], _, fE => ⟨[], fE, none⟩
  | l :: rest, cnt, fE =>
    match ConvLine r rat (cnt + 1) fE l with
    | .fail e => ⟨[], fE, some e⟩
    | .out s fE2 =>
      let res := ConvFileAux r rat rest (cnt + 1) fE2
      ⟨s :: res.outs, res.firstE, res.err⟩

/-- The transform pass over a whole file: `main` clears `FirstE` to 0 before the
run and the line counter starts at 0. -/
def ConvFile (r : Bool) (rat : ℚ) (lines : List String) : FileOut :=
  ConvFileAux r rat lines 0 0

/-- The two toolhead-used flags (`LeftUsed`, `RightUsed` globals), cleared by
`main` before the detector pass. -/
structure DetSt where
  leftUsed : Bool
  rightUsed : Bool
deriving DecidableEq

/-- Claim the right toolhead: `ERROR_BOTH` (conflict, modelled `none`) when the
left one is already claimed, else set `RightUsed`. -/
def claimRight (st : DetSt) : Option DetSt :=
  if st.leftUsed then none else some ⟨st.leftUsed, true⟩

/-- Claim the left toolhead: `ERROR_BOTH` (conflict, modelled `none`) when the
right one is already claimed, else set `LeftUsed`. -/
def claimLeft (st : DetSt) : Option DetSt :=
  if st.rightUsed then none else some ⟨true, st.rightUsed⟩

/-- The `M104` parameter loop of `CheckFile`: walk all remaining tokens,
recording whether `T0` / `T1` appear and the last successfully converted `S`
temperature. -/
def detTempScan : List String → Bool → Bool → ℤ → Bool × Bool × ℤ
  | [], ur, ul, temp => (ur, ul, temp)
  | t :: rest, ur, ul, temp =>
    detTempScan rest (ur || t == "T0") (ul || t == "T1")
      (if t.toList.head? = some 'S' then (parseD (t.drop 1)).getD temp else temp)

/-- Which toolhead a line claims in the `CheckFile` switch, independent of the
flags: only `M101`/`M102` (second token `T0` claims right, `T1` claims left)
and `M104` (a positive temperature next to a designator claims that side, right
checked first) claim anything. `some true` claims right, `some false` left. -/
def lineClaim (line : String) : Option Bool :=
  match tokenize line with
  | [] => none
  | verb :: rest =>
    match codeOf verb with
    | some .M101 | some .M102 =>
      match rest.head? with
      | some t =>
        if t = "T0" then some true
        else if t = "T1" then some false
        else none
      | none => none
    | some .M104 =>
      let s := detTempScan rest false false 0
      if s.1 ∧ 0 < s.2.2 then some true
      else if s.2.1 ∧ 0 < s.2.2 then some false
      else none
    | _ => none

/-- One iteration of the `CheckFile` line loop: apply the line's claim to the
flags; a claim against the opposite flag is the `ERROR_BOTH` conflict
(`none`). -/
def checkLine (st : DetSt) (line : String) : Option DetSt :=
  match lineClaim line with
  | some true => claimRight st
  | some false => claimLeft st
  | none => some st

/-- The `CheckFile` line loop: fold `checkLine`, stopping at a conflict. -/
def CheckFileAux : DetSt → List String → Option DetSt
  | st, [] => some st
  | st, l :: rest =>
    match checkLine st l with
    | none => none
    | some st2 => CheckFileAux st2 rest

/-- Outcome of the detector pass. -/
inductive ChkRes where
  /-- Success, with the final `LeftUsed` / `RightUsed` flags. -/
  | ok (st : DetSt)
  /-- `ERROR: File already uses both extruders.` -/
  | conflict
  /-- `ERROR: Couldn't find a used extruder!` -/
  | usage
deriving DecidableEq

/-- The whole `CheckFile` pass from cleared flags: a conflict aborts; after the
loop, no flag set is the "no used extruder" failure. -/
def CheckFile (lines : List String) : ChkRes :=
  match CheckFileAux ⟨false, false⟩ lines with
  | none => .conflict
  | some st => if st.rightUsed = false ∧ st.leftUsed = false then .usage else .ok st

/-- Outcome of a whole run of `main` over the core passes. The output file is
created (`fopen(outfile, "wb")`) only inside `ConvFile`, which `main` reaches
only after `CheckFile` succeeded, so both detector aborts happen with no output
file in existence. -/
inductive RunResult where
  /-- Detector conflict; `main` returns before any output file is created. -/
  | conflictAbort
  /-- No used extruder found; `main` returns before any output file is created. -/
  | usageAbort
  /-- `ConvFile` ran: the output file was created and holds `f.outs`. -/
  | converted (f : FileOut)
deriving DecidableEq

/-- `main`'s sequencing of the two passes over the same line sequence, with the
ratio already computed from the (validated) diameter arguments. -/
def Run (rat : ℚ) (lines : List String) : RunResult :=
  match CheckFile lines with
  | .conflict => .conflictAbort
  | .usage => .usageAbort
  | .ok st => .converted (ConvFile st.rightUsed rat lines)

/-- Outcome of the diameter-ratio computation in `main`. -/
inductive RatioRes where
  /-- The computed ratio. -/
  | ok (q : ℚ)
  /-- `ERROR: Filament diameter: %s too big/small!`, naming the offender. -/
  | invalid (d : ℚ)
deriving DecidableEq

/-- The diameter handling of `main`: with no diameter pair (`argc == 3`) the
ratio keeps its cleared value 1.0 with no validation; with a pair
(`argc == 5`), each diameter outside [1.5, 2.2] aborts naming it, else the
ratio is the quotient of the squared radii. -/
def computeRatio : Option (ℚ × ℚ) → RatioRes
  | none => .ok 1
  | some (d1, d2) =>
    if d1 < 3 / 2 ∨ 11 / 5 < d1 then .invalid d1
    else if d2 < 3 / 2 ∨ 11 / 5 < d2 then .invalid d2
    else .ok (((d1 / 2) * (d1 / 2)) / ((d2 / 2) * (d2 / 2)))

/-! Definitions taken from the specification's words, for comparison with the
code-derived definitions above. -/

/-- Stated in the spec: `round5(x) = floor(x*100000 + 0.5) / 100000`,
round-half-up to 5 decimal places. -/
def round5 (x : ℚ) : ℚ := (⌊x * 100000 + 1 / 2⌋ : ℚ) / 100000

/-- `printf("%.5f", q)` for a `q` that is an exact multiple of `1/100000` (the
only arguments the program ever prints this way). -/
def printf5 (q : ℚ) : String := fmt5 ⌊q * 100000 + 1 / 2⌋

/-- Stated from the spec's words for the amended C6: the temperature emitted for
a `SetTemperature` line is the integer following the `S` marker taken from the
last token beginning with `S` that converts successfully, among the tokens
preceding the first occurrence of the inactive toolhead's designator (0 when no
such token exists). -/
def specLastTemp (nu : String) (toks : List String) : ℤ :=
  ((toks.takeWhile (fun t => t != nu)).filterMap
      (fun t => if t.toList.head? = some 'S' then parseD (t.drop 1) else none)).getLastD 0

/-! Helper lemmas. -/

theorem codeOf_eq_none (verb : String)
    (h : verb ∉ (["M101", "M102", "M103", "M104", "M108", "M6", "G1"] : List String)) :
    codeOf verb = none := by
  simp only [List.mem_cons, List.not_mem_nil, or_false, not_or] at h
  obtain ⟨h1, h2, h3, h4, h5, h6, h7⟩ := h
  unfold codeOf
  split_ifs
  all_goals simp_all

theorem printf5_round5 (x : ℚ) : printf5 (round5 x) = fmt5 ⌊x * 100000 + 1 / 2⌋ := by
  unfold printf5 round5
  congr 1
  have h1 : ((⌊x * 100000 + 1 / 2⌋ : ℚ) / 100000) * 100000 = (⌊x * 100000 + 1 / 2⌋ : ℚ) := by
    field_simp
  rw [h1, Int.floor_int_add]
  norm_num

theorem tokensAux_join (l : List Char) :
    ∀ acc : List Char, (tokensAux l acc).flatten = acc.reverse ++ l.filter (fun c => ! isDelim c) := by
  induction l with
  | nil =>
    intro acc
    by_cases h : acc = []
    · simp [tokensAux, h]
    · simp [tokensAux, h]
  | cons c rest ih =>
    intro acc
    by_cases hd : isDelim c
    · by_cases h : acc = []
      · simp [tokensAux, hd, h, ih, List.filter_cons]
      · simp [tokensAux, hd, h, ih, List.filter_cons]
    · simp only [tokensAux, hd, Bool.false_eq_true, if_false, if_neg]
      rw [ih (c :: acc)]
      simp [List.filter_cons, hd]

theorem tokensAux_mem (l : List Char) :
    ∀ (acc tk : List Char), (∀ c ∈ acc, isDelim c = false) → tk ∈ tokensAux l acc →
      tk ≠ [] ∧ ∀ c ∈ tk, isDelim c = false := by
  induction l with
  | nil =>
    intro acc tk hacc htk
    unfold tokensAux at htk
    by_cases h : acc = []
    · simp [h] at htk
    · rw [if_neg h] at htk
      simp only [List.mem_singleton] at htk
      subst htk
      refine ⟨by simpa using h, ?_⟩
      intro c hc
      exact hacc c (List.mem_reverse.mp hc)
  | cons c rest ih =>
    intro acc tk hacc htk
    unfold tokensAux at htk
    by_cases hd : isDelim c
    · rw [if_pos hd] at htk
      by_cases h : acc = []
      · rw [if_pos h] at htk
        exact ih [] tk (by simp) htk
      · rw [if_neg h] at htk
        rcases List.mem_cons.mp htk with heq | hmem
        · subst heq
          refine ⟨by simpa using h, ?_⟩
          intro a ha
          exact hacc a (List.mem_reverse.mp ha)
        · exact ih [] tk (by simp) hmem
    · rw [if_neg hd] at htk
      refine ih (c :: acc) tk ?_ htk
      intro a ha
      rcases List.mem_cons.mp ha with heq | hmem
      · subst heq; simpa using hd
      · exact hacc a hmem

/-! Claim theorems. -/

/-- C1 (code evaluation at the failing input): with the right toolhead active
(`NotUsed = "T1"`), an `M103` line whose second token is `"T1"` is NOT dropped:
the `break` leaves the `switch` with `buf` untouched and the unconditional
`fprintf` emits the original line unchanged. The other two conjuncts show the
non-matching cases, which are duplicated for both toolheads as the claim
states. -/
theorem C1_on_off_drop_is_passthrough :
    ConvLine true 1 1 0 "M103 T1\n" = .out "M103 T1\n" 0 ∧
    ConvLine true 1 2 0 "M103 T0\n" = .out "M103 T1\nM103 T0\n" 0 ∧
    ConvLine false 1 3 0 "M6 T0 X\n" = .out "M6 T0 X\n" 0 := by
  refine ⟨by decide, by decide, by decide⟩

/-- C2 (code evaluation at the failing inputs): with the right toolhead active
(`NotUsed = "T1"`), an `M104` or `M108` line containing the `"T1"` designator is
NOT dropped: the `break` in the parameter loop leaves only the `while`, and the
duplicated pair is emitted (for `M104 T1 S200` the scan stops before `S200`, so
the temperature even falls back to 0; for `M108` whose only `R` token follows
the designator the run even aborts instead of dropping). -/
theorem C2_temp_speed_drop_is_emission :
    ConvLine true 1 1 0 "M104 S200 T1\n" = .out "M104 S200 T1\nM104 S200 T0\n" 0 ∧
    ConvLine true 1 2 0 "M108 R100 T1\n" = .out "M108 R100 T1\nM108 R100 T0\n" 0 ∧
    ConvLine true 1 3 0 "M104 T1 S200\n" = .out "M104 S0 T1\nM104 S0 T0\n" 0 ∧
    ConvLine true 1 4 0 "M108 T1 R100\n" = .fail (.noSpeed 4) := by
  refine ⟨by decide, by decide, by decide, by decide⟩

/-- C8: every line whose leading token is not one of the seven verbs (by exact,
case-sensitive string equality; blank lines have no leading token) is emitted
byte-identical, with `FirstE` untouched. -/
theorem C8_unclassified_passthrough (r : Bool) (rat : ℚ) (cnt : ℕ) (fE : ℚ) (line : String)
    (h : tokenize line = [] ∨ ∃ verb rest, tokenize line = verb :: rest ∧
        verb ∉ (["M101", "M102", "M103", "M104", "M108", "M6", "G1"] : List String)) :
    ConvLine r rat cnt fE line = .out line fE := by
  rcases h with h | ⟨verb, rest, htok, hverb⟩
  · unfold ConvLine
    rw [h]
  · unfold ConvLine
    rw [htok]
    dsimp only
    rw [codeOf_eq_none verb hverb]

/-- Witness for C8 at a concrete unclassified line. -/
theorem C8_unclassified_passthrough_witness :
    ConvLine true 1 1 0 "hello world\n" = .out "hello world\n" 0 :=
  C8_unclassified_passthrough true 1 1 0 "hello world\n"
    (Or.inr ⟨"hello", ["world"], by decide, by decide⟩)

/-- C9: for validated diameters the ratio `((D1/2)*(D1/2))/((D2/2)*(D2/2))`
equals `(D1/D2)^2` exactly and is strictly positive; with the diameter pair
omitted the ratio is exactly 1 with no validation. -/
theorem C9_ratio_exact (d1 d2 : ℚ) (h1 : 3 / 2 ≤ d1) (h2 : d1 ≤ 11 / 5)
    (h3 : 3 / 2 ≤ d2) (h4 : d2 ≤ 11 / 5) :
    computeRatio (some (d1, d2)) = .ok ((d1 / d2) ^ 2) ∧ 0 < (d1 / d2) ^ 2 ∧
      computeRatio none = .ok 1 := by
  have hd1 : 0 < d1 := lt_of_lt_of_le (by norm_num) h1
  have hd2 : 0 < d2 := lt_of_lt_of_le (by norm_num) h3
  refine ⟨?_, ?_, rfl⟩
  · unfold computeRatio
    dsimp only
    rw [if_neg (by simp only [not_or, not_lt]; exact ⟨h1, h2⟩),
      if_neg (by simp only [not_or, not_lt]; exact ⟨h3, h4⟩)]
    congr 1
    field_simp
    ring
  · positivity

/-- Witness for C9 at equal diameters 2.0 / 2.0. -/
theorem C9_ratio_exact_witness :
    computeRatio (some (2, 2)) = .ok (((2 : ℚ) / 2) ^ 2) ∧ 0 < ((2 : ℚ) / 2) ^ 2 ∧
      computeRatio none = .ok 1 :=
  C9_ratio_exact 2 2 (by norm_num) (by norm_num) (by norm_num) (by norm_num)

/-- C10: tokenization splits only at space (0x20) and linefeed (0x0A) — every
token is nonempty and delimiter-free, and concatenating the tokens recovers
exactly the non-delimiter characters in order, so tab and carriage return are
ordinary token characters. Concretely, the CRLF-terminated line `"M101\r\n"`
tokenizes to the single token `"M101\r"`, which matches no verb, so both the
transform pass (emit unchanged) and the detector pass (no claim) treat the line
as unclassified. -/
theorem C10_tokenizer_delimiters :
    (∀ l tk : List Char, tk ∈ tokenizeChars l → tk ≠ [] ∧ ∀ c ∈ tk, isDelim c = false) ∧
    (∀ l : List Char, (tokenizeChars l).flatten = l.filter (fun c => ! isDelim c)) ∧
    tokenize "M101\r\n" = ["M101\r"] ∧
    codeOf "M101\r" = none ∧
    ConvLine true 1 1 0 "M101\r\n" = .out "M101\r\n" 0 ∧
    checkLine ⟨false, false⟩ "M101\r\n" = some ⟨false, false⟩ := by
  refine ⟨?_, ?_, by decide, by decide, by decide, by decide⟩
  · intro l tk htk
    exact tokensAux_mem l [] tk (by simp) htk
  · intro l
    simpa using tokensAux_join l []

/-- C3: with the baseline recorded (`FirstE > 0` in the source), an extrusion
token of value `V` yields the pair ordered by the active toolhead — scaled
channel `round5(((V - FirstE) * Ratio) + FirstE)` first, then the original text
after the marker — and leaves `FirstE` unchanged. -/
theorem C3_extrusion_scaling (r : Bool) (rat : ℚ) (cnt : ℕ) (fE : ℚ) (t : String) (V : ℚ)
    (hfE : 0 < fE) (hEAB : isEAB t = true) (hlen : ¬ 15 < t.length)
    (hv : parseLf (t.drop 1) = some V) :
    convG1Token r rat cnt fE t =
      .out ((if r then " B" else " A") ++ printf5 (round5 ((V - fE) * rat + fE)) ++
            (if r then " A" else " B") ++ t.drop 1) fE := by
  unfold convG1Token
  rw [if_pos hEAB, if_neg hlen, hv]
  dsimp only [Option.getD_some]
  rw [if_pos hfE, printf5_round5]
  cases r <;> simp

/-- Witness for C3: right toolhead active, ratio 2, baseline 5, token `E8`. -/
theorem C3_extrusion_scaling_witness :
    convG1Token true 2 1 5 "E8" =
      .out ((if true then " B" else " A") ++ printf5 (round5 (((8 : ℚ) - 5) * 2 + 5)) ++
            (if true then " A" else " B") ++ "E8".drop 1) 5 :=
  C3_extrusion_scaling true 2 1 5 "E8" 8 (by decide) (by decide) (by decide) (by decide)

/-- C4 counterexample: ratio 2, right toolhead active, lines
`G1 E-1` / `G1 E5` / `G1 E8`. The first extrusion value −1 is saved as the
baseline, but because the guard is `FirstE > 0` the second extrusion line is
again emitted unmodified and OVERWRITES the baseline with 5; the third line is
then rescaled against 5, not against the first-line baseline −1 (which would
give `(8−(−1))×2+(−1) = 17`). So the baseline is set twice and later extrusion
tokens are not rescaled against the baseline from the first extrusion-bearing
line. -/
theorem C4_baseline_set_twice_cex :
    ConvLine true 2 1 0 "G1 E-1\n" = .out "G1 A-1 B-1\n" (-1) ∧
    ConvLine true 2 2 (-1) "G1 E5\n" = .out "G1 A5 B5\n" 5 ∧
    ((5 : ℚ) ≠ -1) ∧
    ConvFile true 2 ["G1 E-1\n", "G1 E5\n", "G1 E8\n"] =
      ⟨["G1 A-1 B-1\n", "G1 A5 B5\n", "G1 B11.00000 A8\n"], 5, none⟩ := by
  refine ⟨by decide, by decide, by decide, by with_unfolding_all rfl⟩

theorem convG1Token_keep (r : Bool) (rat : ℚ) (cnt : ℕ) (fE : ℚ) (t s : String) (fE2 : ℚ)
    (hpos : 0 < fE) (h : convG1Token r rat cnt fE t = .out s fE2) : fE2 = fE := by
  unfold convG1Token at h
  split_ifs at h
  all_goals (try injection h)
  all_goals simp_all

theorem convG1_keep (r : Bool) (rat : ℚ) (cnt : ℕ) :
    ∀ (toks : List String) (acc : String) (fE : ℚ) (s : String) (fE2 : ℚ), 0 < fE →
      convG1 r rat cnt toks acc fE = .out s fE2 → fE2 = fE := by
  intro toks
  induction toks with
  | nil =>
    intro acc fE s fE2 hpos h
    unfold convG1 at h
    injection h with h1 h2
    exact h2.symm
  | cons t rest ih =>
    intro acc fE s fE2 hpos h
    unfold convG1 at h
    cases htk : convG1Token r rat cnt fE t with
    | fail e => rw [htk] at h; cases h
    | out s3 fE3 =>
      rw [htk] at h
      have hfE3 : fE3 = fE := convG1Token_keep r rat cnt fE t s3 fE3 hpos htk
      subst hfE3
      exact ih (acc ++ s3) fE3 s fE2 hpos h

theorem ConvLine_keep (r : Bool) (rat : ℚ) (cnt : ℕ) (fE : ℚ) (line s : String) (fE2 : ℚ)
    (hpos : 0 < fE) (h : ConvLine r rat cnt fE line = .out s fE2) : fE2 = fE := by
  unfold ConvLine at h
  cases htok : tokenize line with
  | nil =>
    rw [htok] at h
    injection h with h1 h2
    exact h2.symm
  | cons verb rest =>
    rw [htok] at h
    dsimp only at h
    cases hc : codeOf verb with
    | none =>
      rw [hc] at h
      injection h with h1 h2
      exact h2.symm
    | some c =>
      rw [hc] at h
      cases c with
      | M104 =>
        dsimp only at h
        injection h with h1 h2
        exact h2.symm
      | M108 =>
        dsimp only at h
        cases hs : scanSpeed (NotUsed r) cnt rest "" with
        | fail e => rw [hs] at h; cases h
        | ok speed =>
          rw [hs] at h
          injection h with h1 h2
          exact h2.symm
      | G1 => exact convG1_keep r rat cnt rest (codeStr .G1) fE s fE2 hpos h
      | M101 =>
        dsimp only at h
        cases hh : rest.head? with
        | some t =>
          rw [hh] at h
          dsimp only at h
          split_ifs at h <;> (injection h with h1 h2; exact h2.symm)
        | none =>
          rw [hh] at h
          injection h with h1 h2
          exact h2.symm
      | M102 =>
        dsimp only at h
        cases hh : rest.head? with
        | some t =>
          rw [hh] at h
          dsimp only at h
          split_ifs at h <;> (injection h with h1 h2; exact h2.symm)
        | none =>
          rw [hh] at h
          injection h with h1 h2
          exact h2.symm
      | M103 =>
        dsimp only at h
        cases hh : rest.head? with
        | some t =>
          rw [hh] at h
          dsimp only at h
          split_ifs at h <;> (injection h with h1 h2; exact h2.symm)
        | none =>
          rw [hh] at h
          injection h with h1 h2
          exact h2.symm
      | M6 =>
        dsimp only at h
        cases hh : rest.head? with
        | some t =>
          rw [hh] at h
          dsimp only at h
          split_ifs at h <;> (injection h with h1 h2; exact h2.symm)
        | none =>
          rw [hh] at h
          injection h with h1 h2
          exact h2.symm

theorem ConvFileAux_keep (r : Bool) (rat : ℚ) :
    ∀ (lines : List String) (cnt : ℕ) (fE : ℚ), 0 < fE →
      (ConvFileAux r rat lines cnt fE).firstE = fE := by
  intro lines
  induction lines with
  | nil => intro cnt fE hpos; rfl
  | cons l rest ih =>
    intro cnt fE hpos
    unfold ConvFileAux
    cases hcl : ConvLine r rat (cnt + 1) fE l with
    | fail e => rfl
    | out s fE2 =>
      have h2 : fE2 = fE := ConvLine_keep r rat (cnt + 1) fE l s fE2 hpos hcl
      subst h2
      exact ih (cnt + 1) fE2 hpos

/-- C4 as amended: an extrusion token processed while the baseline is not yet
strictly positive is emitted with both channels carrying the unmodified text
and ASSIGNS the baseline (so a nonpositive first extrusion value lets it be
reassigned); once the baseline is strictly positive it is read-only — every
line, and hence the rest of the run, preserves it. -/
theorem C4_baseline_amended :
    (∀ (r : Bool) (rat : ℚ) (cnt : ℕ) (fE : ℚ) (t : String),
      ¬ 0 < fE → isEAB t = true → ¬ 15 < t.length →
      convG1Token r rat cnt fE t =
        .out (" A" ++ t.drop 1 ++ " B" ++ t.drop 1) ((parseLf (t.drop 1)).getD 0)) ∧
    (∀ (r : Bool) (rat : ℚ) (cnt : ℕ) (fE : ℚ) (line s : String) (fE2 : ℚ),
      0 < fE → ConvLine r rat cnt fE line = .out s fE2 → fE2 = fE) ∧
    (∀ (r : Bool) (rat : ℚ) (lines : List String) (cnt : ℕ) (fE : ℚ),
      0 < fE → (ConvFileAux r rat lines cnt fE).firstE = fE) := by
  refine ⟨?_, ?_, ?_⟩
  · intro r rat cnt fE t hneg hEAB hlen
    unfold convG1Token
    rw [if_pos hEAB, if_neg hlen, if_neg hneg]
  · intro r rat cnt fE line s fE2 hpos h
    exact ConvLine_keep r rat cnt fE line s fE2 hpos h
  · intro r rat lines cnt fE hpos
    exact ConvFileAux_keep r rat lines cnt fE hpos

/-- Witness for C4's amended statement: a token seen with baseline 0 assigns
it; a line processed with baseline 5 keeps it, as does a whole file. -/
theorem C4_baseline_amended_witness :
    convG1Token true 1 1 0 "E5" = .out (" A" ++ "E5".drop 1 ++ " B" ++ "E5".drop 1)
        ((parseLf ("E5".drop 1)).getD 0) ∧
    (5 : ℚ) = 5 ∧
    (ConvFileAux true 1 ["G1 E8\n", "M6\n"] 0 5).firstE = 5 := by
  refine ⟨?_, ?_, ?_⟩
  · exact C4_baseline_amended.1 true 1 1 0 "E5" (by norm_num) (by decide) (by decide)
  · exact C4_baseline_amended.2.1 true 1 2 5 "M6 T0\n" "M6 T1\nM6 T0\n" 5 (by norm_num)
      (by decide)
  · exact C4_baseline_amended.2.2 true 1 ["G1 E8\n", "M6\n"] 0 5 (by norm_num)

theorem checkLine_excl (st st2 : DetSt) (line : String)
    (hinv : ¬ (st.leftUsed = true ∧ st.rightUsed = true))
    (h : checkLine st line = some st2) :
    ¬ (st2.leftUsed = true ∧ st2.rightUsed = true) := by
  unfold checkLine at h
  cases hcl : lineClaim line with
  | none =>
    rw [hcl] at h
    injection h with h1
    subst h1
    exact hinv
  | some b =>
    cases b with
    | true =>
      rw [hcl] at h
      unfold claimRight at h
      by_cases hl : st.leftUsed = true
      · rw [if_pos hl] at h; cases h
      · rw [if_neg hl] at h
        injection h with h1
        subst h1
        simpa using hl
    | false =>
      rw [hcl] at h
      unfold claimLeft at h
      by_cases hr : st.rightUsed = true
      · rw [if_pos hr] at h; cases h
      · rw [if_neg hr] at h
        injection h with h1
        subst h1
        simpa using hr

theorem CheckFileAux_excl :
    ∀ (lines : List String) (st st2 : DetSt),
      ¬ (st.leftUsed = true ∧ st.rightUsed = true) →
      CheckFileAux st lines = some st2 →
      ¬ (st2.leftUsed = true ∧ st2.rightUsed = true) := by
  intro lines
  induction lines with
  | nil =>
    intro st st2 hinv h
    unfold CheckFileAux at h
    injection h with h1
    subst h1
    exact hinv
  | cons l rest ih =>
    intro st st2 hinv h
    unfold CheckFileAux at h
    cases hcl : checkLine st l with
    | none => rw [hcl] at h; cases h
    | some st3 =>
      rw [hcl] at h
      exact ih st3 st2 (checkLine_excl st st3 l hinv hcl) h

/-- C5: a detector conflict or a usage failure aborts the run before the output
file is created (the `Run` driver never reaches `ConvFile`); on success exactly
one of the two toolheads is recorded active; and a line that claims one
toolhead from a clear state yields the conflict (`ERROR_BOTH`) whenever the
opposite toolhead is already claimed. -/
theorem C5_detector_exclusive (lines : List String) (rat : ℚ) :
    (CheckFile lines = .conflict → Run rat lines = .conflictAbort) ∧
    (CheckFile lines = .usage → Run rat lines = .usageAbort) ∧
    (∀ st, CheckFile lines = .ok st →
      (st.rightUsed = true ∧ st.leftUsed = false) ∨
      (st.leftUsed = true ∧ st.rightUsed = false)) ∧
    (∀ (line : String) (st st0 : DetSt), checkLine ⟨false, false⟩ line = some st0 →
      (st0.rightUsed = true → st.leftUsed = true → checkLine st line = none) ∧
      (st0.leftUsed = true → st.rightUsed = true → checkLine st line = none)) := by
  refine ⟨?_, ?_, ?_, ?_⟩
  · intro h
    unfold Run
    rw [h]
  · intro h
    unfold Run
    rw [h]
  · intro st h
    unfold CheckFile at h
    cases haux : CheckFileAux ⟨false, false⟩ lines with
    | none => rw [haux] at h; cases h
    | some st1 =>
      rw [haux] at h
      dsimp only at h
      have hexcl := CheckFileAux_excl lines ⟨false, false⟩ st1 (by simp) haux
      by_cases hz : st1.rightUsed = false ∧ st1.leftUsed = false
      · rw [if_pos hz] at h; cases h
      · rw [if_neg hz] at h
        injection h with h1
        subst h1
        rcases Bool.eq_false_or_eq_true st1.leftUsed with hl | hl <;>
          rcases Bool.eq_false_or_eq_true st1.rightUsed with hr | hr <;>
          simp_all
  · intro line st st0 h
    unfold checkLine at h ⊢
    cases hcl : lineClaim line with
    | none =>
      rw [hcl] at h
      injection h with h1
      subst h1
      simp
    | some b =>
      cases b with
      | true =>
        rw [hcl] at h
        unfold claimRight at h ⊢
        simp only [if_neg (by simp : ¬ ((⟨false, false⟩ : DetSt).leftUsed = true))] at h
        injection h with h1
        subst h1
        refine ⟨fun _ hl => ?_, fun h0 _ => ?_⟩
        · rw [if_pos hl]
        · cases h0
      | false =>
        rw [hcl] at h
        unfold claimLeft at h ⊢
        simp only [if_neg (by simp : ¬ ((⟨false, false⟩ : DetSt).rightUsed = true))] at h
        injection h with h1
        subst h1
        refine ⟨fun h0 _ => ?_, fun _ hr => ?_⟩
        · cases h0
        · rw [if_pos hr]

/-- Witness for C5 at concrete inputs: a conflicting file aborts with no output
file; a file with no activation aborts with no output file; a detected
left-active file reports exactly one toolhead; and an `M101 T0` claim against
an already-claimed left toolhead is a conflict. -/
theorem C5_detector_exclusive_witness :
    Run 1 ["M104 S200 T0\n", "M104 S200 T1\n"] = .conflictAbort ∧
    Run 1 ["G1 X1\n"] = .usageAbort ∧
    ((DetSt.mk false true).rightUsed = true ∧ (DetSt.mk false true).leftUsed = false ∨
      ((DetSt.mk false true).leftUsed = true ∧ (DetSt.mk false true).rightUsed = false)) ∧
    checkLine ⟨true, false⟩ "M101 T0\n" = none := by
  refine ⟨?_, ?_, ?_, ?_⟩
  · exact (C5_detector_exclusive ["M104 S200 T0\n", "M104 S200 T1\n"] 1).1 (by decide)
  · exact (C5_detector_exclusive ["G1 X1\n"] 1).2.1 (by decide)
  · exact (C5_detector_exclusive ["M101 T0\n"] 1).2.2.1 ⟨false, true⟩ (by decide)
  · exact ((C5_detector_exclusive [] 1).2.2.2 "M101 T0\n" ⟨true, false⟩ ⟨false, true⟩
      (by decide)).1 (by decide) (by decide)

theorem scanTemp_eq (nu : String) :
    ∀ (toks : List String) (temp : ℤ),
      scanTemp nu toks temp =
        ((toks.takeWhile (fun t => t != nu)).filterMap
            (fun t => if t.toList.head? = some 'S' then parseD (t.drop 1) else none)).getLastD
          temp := by
  intro toks
  induction toks with
  | nil => intro temp; rfl
  | cons t rest ih =>
    intro temp
    unfold scanTemp
    by_cases hnu : t = nu
    · rw [if_pos hnu]
      have hb : (t != nu) = false := by simp [hnu]
      rw [List.takeWhile_cons, hb, if_neg (by simp), List.filterMap_nil, List.getLastD_nil]
    · rw [if_neg hnu]
      have hb : (t != nu) = true := by simp [hnu]
      by_cases hS : t.toList.head? = some 'S'
      · rw [if_pos hS]
        rw [List.takeWhile_cons, hb, if_pos rfl, List.filterMap_cons]
        cases hp : parseD (t.drop 1) with
        | none =>
          rw [if_pos hS]
          exact ih temp
        | some v =>
          rw [if_pos hS]
          exact (ih v).trans (List.getLastD_cons temp v _).symm
      · rw [if_neg hS]
        rw [List.takeWhile_cons, hb, if_pos rfl, List.filterMap_cons, if_neg hS]
        exact ih temp

/-- C6 counterexample: with the right toolhead active and input line
`M104 S200 S210`, the code emits the temperature of the LAST `S` token (210),
not of the first (200) as the claim states. -/
theorem C6_first_s_token_cex :
    ConvLine true 1 1 0 "M104 S200 S210\n" = .out "M104 S210 T1\nM104 S210 T0\n" 0 ∧
    ("M104 S210 T1\nM104 S210 T0\n" : String) ≠ "M104 S200 T1\nM104 S200 T0\n" := by
  refine ⟨by decide, by decide⟩

/-- C6 as amended: for every `SetTemperature` line the emitted temperature is
the integer following the `S` marker taken from the LAST token beginning with
`S` whose conversion succeeds, among the tokens preceding the first occurrence
of the inactive toolhead's designator (0 when no such token exists), and the
emitted pair is verb, temperature, `T1`, then verb, temperature, `T0`. -/
theorem C6_last_s_token_amended (r : Bool) (rat : ℚ) (cnt : ℕ) (fE : ℚ) (line : String)
    (rest : List String) (htok : tokenize line = "M104" :: rest) :
    ConvLine r rat cnt fE line =
      .out ("M104" ++ " S" ++ toString (specLastTemp (NotUsed r) rest) ++ " T1\n" ++
            "M104" ++ " S" ++ toString (specLastTemp (NotUsed r) rest) ++ " T0\n") fE := by
  unfold ConvLine
  rw [htok]
  dsimp only
  rw [show codeOf "M104" = some Code.M104 from rfl]
  dsimp only [codeStr]
  rw [scanTemp_eq]
  rfl

/-- Witness for C6's amended statement: `M104 S200 T1` with the right toolhead
active — the scan stops at the `T1` designator, so the last converting `S`
token before it is `S200`. -/
theorem C6_last_s_token_amended_witness :
    ConvLine true 1 1 0 "M104 S200 T1\n" =
      .out ("M104" ++ " S" ++ toString (specLastTemp (NotUsed true) ["S200", "T1"]) ++ " T1\n" ++
            "M104" ++ " S" ++ toString (specLastTemp (NotUsed true) ["S200", "T1"]) ++ " T0\n") 0 :=
  C6_last_s_token_amended true 1 1 0 "M104 S200 T1\n" ["S200", "T1"] (by decide)

theorem scanSpeed_long (nu : String) (cnt : ℕ) :
    ∀ (toks : List String) (speed : String),
      (∃ t ∈ toks.takeWhile (fun t => t != nu), t.toList.head? = some 'R' ∧ 15 < t.length) →
      scanSpeed nu cnt toks speed = .fail (.speedTooLong cnt) := by
  intro toks
  induction toks with
  | nil => intro speed h; simp at h
  | cons t rest ih =>
    intro speed h
    by_cases hnu : t = nu
    · rw [List.takeWhile_cons, show (t != nu) = false by simp [hnu], if_neg (by simp)] at h
      simp at h
    · have hb : (t != nu) = true := by simp [hnu]
      rw [List.takeWhile_cons, hb, if_pos rfl] at h
      unfold scanSpeed
      rw [if_neg hnu]
      rcases h with ⟨w, hw, hwR, hwlen⟩
      rcases List.mem_cons.mp hw with heq | hmem
      · subst heq
        rw [if_pos hwR, if_pos hwlen]
      · by_cases hR : t.toList.head? = some 'R'
        · rw [if_pos hR]
          by_cases hlen : 15 < t.length
          · rw [if_pos hlen]
          · rw [if_neg hlen]
            exact ih t ⟨w, hmem, hwR, hwlen⟩
        · rw [if_neg hR]
          exact ih speed ⟨w, hmem, hwR, hwlen⟩

theorem scanSpeed_noR (nu : String) (cnt : ℕ) :
    ∀ (toks : List String) (speed : String),
      (∀ t ∈ toks.takeWhile (fun t => t != nu), ¬ t.toList.head? = some 'R') →
      scanSpeed nu cnt toks speed =
        (if speed = "" then .fail (.noSpeed cnt) else .ok speed) := by
  intro toks
  induction toks with
  | nil => intro speed h; rfl
  | cons t rest ih =>
    intro speed h
    unfold scanSpeed
    by_cases hnu : t = nu
    · rw [if_pos hnu]
    · have hb : (t != nu) = true := by simp [hnu]
      rw [List.takeWhile_cons, hb, if_pos rfl] at h
      rw [if_neg hnu, if_neg (h t (List.mem_cons_self t _))]
      exact ih speed (fun u hu => h u (List.mem_cons_of_mem t hu))

theorem convG1Token_fail (r : Bool) (rat : ℚ) (cnt : ℕ) (fE : ℚ) (t : String)
    (hEAB : isEAB t = true) (hlen : 15 < t.length) :
    convG1Token r rat cnt fE t = .fail (.eTooLong cnt) := by
  unfold convG1Token
  rw [if_pos hEAB, if_pos hlen]

theorem convG1_long (r : Bool) (rat : ℚ) (cnt : ℕ) :
    ∀ (toks : List String) (acc : String) (fE : ℚ),
      (∃ t ∈ toks, isEAB t = true ∧ 15 < t.length) →
      convG1 r rat cnt toks acc fE = .fail (.eTooLong cnt) := by
  intro toks
  induction toks with
  | nil => intro acc fE h; simp at h
  | cons t rest ih =>
    intro acc fE h
    unfold convG1
    rcases h with ⟨w, hw, hwEAB, hwlen⟩
    rcases List.mem_cons.mp hw with heq | hmem
    · subst heq
      rw [convG1Token_fail r rat cnt fE w hwEAB hwlen]
    · cases htk : convG1Token r rat cnt fE t with
      | fail e =>
        have : e = .eTooLong cnt := by
          unfold convG1Token at htk
          split_ifs at htk
          all_goals injection htk with h1
          all_goals exact h1.symm
        rw [this]
      | out s fE2 => exact ih (acc ++ s) fE2 ⟨w, hmem, hwEAB, hwlen⟩

theorem ConvFileAux_append (r : Bool) (rat : ℚ) :
    ∀ (pre post : List String) (cnt : ℕ) (fE : ℚ),
      ConvFileAux r rat (pre ++ post) cnt fE =
        (match ConvFileAux r rat pre cnt fE with
         | ⟨outs, fE2, none⟩ =>
           ⟨outs ++ (ConvFileAux r rat post (cnt + pre.length) fE2).outs,
            (ConvFileAux r rat post (cnt + pre.length) fE2).firstE,
            (ConvFileAux r rat post (cnt + pre.length) fE2).err⟩
         | ⟨outs, fE2, some e⟩ => ⟨outs, fE2, some e⟩) := by
  intro pre
  induction pre with
  | nil => intro post cnt fE; simp [ConvFileAux]
  | cons l pre ih =>
    intro post cnt fE
    rw [List.cons_append]
    simp only [ConvFileAux]
    cases hcl : ConvLine r rat (cnt + 1) fE l with
    | fail e => rfl
    | out s fE2 =>
      dsimp only
      rw [ih post (cnt + 1) fE2]
      have harith : cnt + 1 + pre.length = cnt + (pre.length + 1) := by omega
      cases hf : ConvFileAux r rat pre (cnt + 1) fE2 with
      | mk outs1 fE3 err1 =>
        cases err1 with
        | none =>
          dsimp only [List.length_cons]
          rw [harith]
          simp
        | some e => rfl

/-- C7 counterexample: with the right toolhead active, the line
`M108 R5 T1 R0123456789012345` carries a speed token of 17 characters, yet the
run does not abort: the parameter loop leaves at the `T1` designator before
reaching the overlong token, the line is emitted duplicated with `R5`, and the
following line is still processed. -/
theorem C7_overlong_speed_cex :
    ConvFile true 1 ["M108 R5 T1 R0123456789012345\n", "x\n"] =
      ⟨["M108 R5 T1\nM108 R5 T0\n", "x\n"], 0, none⟩ ∧
    15 < ("R0123456789012345" : String).length := by
  refine ⟨by decide, by decide⟩

/-- C7 as amended: an overlong (more than 15 characters) speed token that is
actually scanned — no token equal to the inactive designator precedes it — or
an `M108` line with no `R` token among the scanned tokens, or an overlong
extrusion token on a `G1` line, aborts the run at that line with a FormatError
citing its 1-based number; the outputs of the preceding lines remain written
and nothing is emitted for the failing line or any later one. -/
theorem C7_abort_amended (r : Bool) (rat : ℚ) (pre : List String) (line : String)
    (post : List String) (preOuts : List String) (fE1 : ℚ)
    (hpre : ConvFileAux r rat pre 0 0 = ⟨preOuts, fE1, none⟩)
    (hbad :
      (∃ rest, tokenize line = "M108" :: rest ∧
        ((∃ t ∈ rest.takeWhile (fun t => t != NotUsed r),
            t.toList.head? = some 'R' ∧ 15 < t.length) ∨
         (∀ t ∈ rest.takeWhile (fun t => t != NotUsed r), ¬ t.toList.head? = some 'R'))) ∨
      (∃ rest, tokenize line = "G1" :: rest ∧ ∃ t ∈ rest, isEAB t = true ∧ 15 < t.length)) :
    ∃ e, ConvFile r rat (pre ++ line :: post) = ⟨preOuts, fE1, some e⟩ ∧
      lineNoOf e = pre.length + 1 := by
  have hfail : ∃ e, ConvLine r rat (pre.length + 1) fE1 line = .fail e ∧
      lineNoOf e = pre.length + 1 := by
    rcases hbad with ⟨rest, htok, hcond⟩ | ⟨rest, htok, hex⟩
    · rcases hcond with hlong | hnoR
      · refine ⟨.speedTooLong (pre.length + 1), ?_, rfl⟩
        unfold ConvLine
        rw [htok]
        dsimp only
        rw [show codeOf "M108" = some Code.M108 from rfl]
        dsimp only
        rw [scanSpeed_long (NotUsed r) (pre.length + 1) rest "" hlong]
      · refine ⟨.noSpeed (pre.length + 1), ?_, rfl⟩
        unfold ConvLine
        rw [htok]
        dsimp only
        rw [show codeOf "M108" = some Code.M108 from rfl]
        dsimp only
        rw [scanSpeed_noR (NotUsed r) (pre.length + 1) rest "" hnoR, if_pos rfl]
    · refine ⟨.eTooLong (pre.length + 1), ?_, rfl⟩
      unfold ConvLine
      rw [htok]
      dsimp only
      rw [show codeOf "G1" = some Code.G1 from rfl]
      dsimp only
      exact convG1_long r rat (pre.length + 1) rest (codeStr .G1) fE1 hex
  obtain ⟨e, he, hno⟩ := hfail
  refine ⟨e, ?_, hno⟩
  unfold ConvFile
  rw [ConvFileAux_append r rat pre (line :: post) 0 0, hpre]
  dsimp only
  unfold ConvFileAux
  rw [show (0 : ℕ) + pre.length + 1 = pre.length + 1 by omega, he]
  simp

/-- Witness for C7's amended statement: an overlong `E` token on line 2 aborts
citing line 2, keeping line 1's output only. -/
theorem C7_abort_amended_witness :
    ∃ e, ConvFile true 1 ["hello\n", "G1 E0123456789012345\n", "x\n"] =
        ⟨["hello\n"], 0, some e⟩ ∧ lineNoOf e = 2 := by
  have h := C7_abort_amended true 1 ["hello\n"] "G1 E0123456789012345\n" ["x\n"] ["hello\n"] 0
    (by decide)
    (Or.inr ⟨["E0123456789012345"], by decide, "E0123456789012345", by decide, by decide,
      by decide⟩)
  simpa using h

/-- Witness for C10's quantified conjuncts at a concrete line. -/
theorem C10_tokenizer_delimiters_witness :
    (("a b\n".toList.filter (fun c => ! isDelim c)) = "ab".toList) ∧
    ['a'] ≠ [] ∧ ∀ c ∈ ['a'], isDelim c = false := by
  have h1 := C10_tokenizer_delimiters.2.1 "a b\n".toList
  have h2 := C10_tokenizer_delimiters.1 "a b\n".toList ['a'] (by decide)
  exact ⟨by rw [← h1]; decide, h2⟩

end DualExtrude
